import Mathlib

/-!
Verification of the LabelLens core analysis engine.

Shallow embedding of the ingredient parsing, normalization, rule-based
screening, result aggregation and health-score code of the repository
(src/labellens/analyzer.py, src/labellens/llm.py, src/labellens/profiles.py,
src/labellens/config.py, src/app.py).

Python strings are modelled as lists of character code points (`Str`), so
that all character reasoning is plain natural-number arithmetic.  String
literals are injected with `str`.  The external Groq API round-trip is
modelled as a value of type `Except Str LLMResponse` standing for the
outcome of the network call: `Except.error e` models the call raising an
exception whose message is `e`.
-/

namespace LabelLens

/-- A Python string, as its list of character code points. -/
abbrev Str := List Nat

/-- Inject a Lean string literal into the model. -/
def str (s : String) : Str := s.toList.map Char.toNat

/-- Python `str.strip` whitespace set (space, tab, LF, CR, VT, FF). -/
def isSpace (c : Nat) : Bool := c = 32 || c = 9 || c = 10 || c = 13 || c = 11 || c = 12

/-- ASCII lower-casing of one code point (model of `str.lower` on one char). -/
def lowerChar (c : Nat) : Nat := if 65 ≤ c ∧ c ≤ 90 then c + 32 else c

/-- Strip leading whitespace (the left half of Python `str.strip`). -/
def trimL (l : Str) : Str := l.dropWhile isSpace

/-- Strip trailing whitespace (the right half of Python `str.strip`). -/
def trimR : Str → Str
  | [] => []
  | c :: rest =>
    let r := trimR rest
    if r = [] ∧ isSpace c then [] else c :: r

/-- Python `str.strip`. -/
def trim (l : Str) : Str := trimR (trimL l)

/-- Does the string contain a close parenthesis `)` (code 41)? -/
def hasRP : Str → Bool
  | [] => false
  | c :: r => (c == 41) || hasRP r

/-- One left-to-right pass of `re.sub(r'\([^)]*\)', '', s)`: in scanning mode
(`deleting = false`), an `(` that has some `)` ahead starts a match which
deletes every character up to and including the first subsequent `)`
(deleting mode); everything else is copied. -/
def rpAux : Str → Bool → Str
  | [], _ => []
  | c :: rest, true => if c = 41 then rpAux rest false else rpAux rest true
  | c :: rest, false =>
    if c = 40 ∧ hasRP rest = true then rpAux rest true else c :: rpAux rest false

/-- Model of `re.sub(r'\([^)]*\)', '', s)` in `IngredientParser.normalize`. -/
def removeParens (l : Str) : Str := rpAux l false

/-- Is there an `(` with a `)` somewhere after it (i.e. does the regex
`\([^)]*\)` match anywhere)? -/
def hasMatch : Str → Bool
  | [] => false
  | c :: r => ((c == 40) && hasRP r) || hasMatch r

/-- Python `str.split()` (split on whitespace runs, dropping empty pieces),
written with one character of lookahead so that the recursion is structural. -/
def words : Str → List Str
  | [] => []
  | c :: rest =>
    if isSpace c then words rest
    else
      match rest, words rest with
      | [], _ => [[c]]
      | d :: _, ws =>
        if isSpace d then [c] :: ws
        else
          match ws with
          | w :: ws2 => (c :: w) :: ws2
          | [] => [[c]]

/-- Python `' '.join(ws)` (code 32 is the space character). -/
def joinSp : List Str → Str
  | [] => []
  | [w] => w
  | w :: v :: ws => w ++ 32 :: joinSp (v :: ws)

/-- Concatenation of a list of strings. -/
def catList : List Str → Str
  | [] => []
  | w :: ws => w ++ catList ws

/-- Python `' '.join(s.split())`: collapse whitespace runs to single spaces. -/
def collapse (l : Str) : Str := joinSp (words l)

/-- `IngredientParser.normalize`: remove parenthetical content, lower-case,
collapse whitespace (analyzer.py lines 144-159). -/
def normalize (l : Str) : Str := collapse ((removeParens l).map lowerChar)

/-- Is the character one of the two parenthesis characters? -/
def isParen (c : Nat) : Bool := (c == 40) || (c == 41)

/-- Case-insensitive literal word match: consumes `w` (given lower-case) from
the front of `l`, returning the remainder, or `none` if it does not match. -/
def matchWordCI : Str → Str → Option Str
  | [], rest => some rest
  | _ :: _, [] => none
  | a :: ws, c :: cs => if lowerChar c = a then matchWordCI ws cs else none

/-- Match the regex tail `\s*:\s*` (code 58 is the colon), returning what
follows, or `none`. -/
def colonTail (l : Str) : Option Str :=
  match l.dropWhile isSpace with
  | c :: rest => if c = 58 then some (rest.dropWhile isSpace) else none
  | [] => none

/-- One `re.sub(r"^word s? \s*:\s*", "", text, flags=IGNORECASE)` step: strip
the word, an optional trailing `s` (code 115, with the regex backtracking on
`s?`), then `\s*:\s*`; if the whole pattern fails to match, the text is
unchanged (analyzer.py lines 112-117). -/
def stripLabelWord (w : Str) (l : Str) : Str :=
  match matchWordCI w l with
  | none => l
  | some rest =>
    match rest with
    | c :: rest2 =>
      if lowerChar c = 115 then
        match colonTail rest2 with
        | some r => r
        | none =>
          match colonTail rest with
          | some r => r
          | none => l
      else
        match colonTail rest with
        | some r => r
        | none => l
    | [] =>
      match colonTail rest with
      | some r => r
      | none => l

/-- Both label-removal substitutions of `IngredientParser.parse`, in source
order: `^ingredients?\s*:\s*` then `^contains?\s*:\s*`. -/
def stripLabels (l : Str) : Str :=
  stripLabelWord (str "contain") (stripLabelWord (str "ingredient") l)

/-- The character scan of `IngredientParser.parse` (analyzer.py lines
121-140): split on comma (44) or semicolon (59) only at parenthesis depth
zero, tracking depth as a (possibly negative) integer, pushing the stripped
accumulator when non-empty, and flushing a non-empty stripped tail. -/
def scanSplit : Str → Str → Int → List Str
  | [], cur, _ => if trim cur = [] then [] else [trim cur]
  | c :: rest, cur, d =>
    if c = 40 then scanSplit rest (cur ++ [c]) (d + 1)
    else if c = 41 then scanSplit rest (cur ++ [c]) (d - 1)
    else if (c = 44 ∨ c = 59) ∧ d = 0 then
      (if trim cur = [] then [] else [trim cur]) ++ scanSplit rest [] d
    else scanSplit rest (cur ++ [c]) d

/-- `IngredientParser.parse` (analyzer.py lines 92-142). -/
def parse (raw : Str) : List Str :=
  if raw = [] then []
  else scanSplit (stripLabels (trim raw)) [] 0

/-- `ProfileType` (profiles.py lines 13-30). -/
inductive ProfileType where
  | type_2_diabetes
  | pcos
  | hypertension
  | ibs_low_fodmap
  | celiac
  | nut_allergy
  | kidney_disease
  | keto
  | avoid_seed_oils
  | thyroid_hypothyroid
  | heart_disease
  | lactose_intolerance
  | gout_high_uric_acid
  | fatty_liver
  | gastritis_gerd
deriving DecidableEq, Repr

/-- `UserProfile` (profiles.py lines 415-422). -/
structure UserProfile where
  active_profiles : List ProfileType
  custom_restrictions : List Str
  severity_preference : Str := str "balanced"
deriving DecidableEq, Repr

/-- `HealthProfile.display_name` for each registry entry (profiles.py). -/
def displayName : ProfileType → Str
  | .type_2_diabetes => str "Type 2 Diabetes"
  | .pcos => str "PCOS (Polycystic Ovary Syndrome)"
  | .hypertension => str "Hypertension (High Blood Pressure)"
  | .ibs_low_fodmap => str "IBS (Low-FODMAP Diet)"
  | .celiac => str "Celiac Disease (Gluten-Free)"
  | .nut_allergy => str "Nut Allergy"
  | .kidney_disease => str "Kidney Disease (Renal Diet)"
  | .keto => str "Ketogenic Diet"
  | .avoid_seed_oils => str "Avoid Seed Oils"
  | .thyroid_hypothyroid => str "Thyroid (Hypothyroidism)"
  | .heart_disease => str "Heart Disease (Cardiovascular)"
  | .lactose_intolerance => str "Lactose Intolerance"
  | .gout_high_uric_acid => str "Gout / High Uric Acid"
  | .fatty_liver => str "Fatty Liver (NAFLD)"
  | .gastritis_gerd => str "Gastritis / Acid Reflux (GERD)"

/-- `UserProfile.get_display_names` (profiles.py lines 445-459): display
names of active profiles, then a `Custom: <name>` entry for each custom
restriction containing a colon (the part before the first colon, stripped),
or `Custom Profile` otherwise. -/
def get_display_names (p : UserProfile) : List Str :=
  p.active_profiles.map displayName ++
    p.custom_restrictions.map (fun r =>
      if 58 ∈ r then str "Custom: " ++ trim (r.takeWhile (fun c => !(c == 58)))
      else str "Custom Profile")

/-- Does `needle` start `hay`? -/
def startsWith : Str → Str → Bool
  | [], _ => true
  | _ :: _, [] => false
  | a :: ns, c :: cs => (a == c) && startsWith ns cs

/-- Python substring containment `needle in hay`. -/
def isSubstr (needle : Str) : Str → Bool
  | [] => needle == []
  | c :: rest => startsWith needle (c :: rest) || isSubstr needle rest

/-- `RiskType` string constants (config.py lines 26-38). -/
def hidden_sugar : Str := str "hidden_sugar"

def seed_oil : Str := str "seed_oil"

def high_fodmap : Str := str "high_fodmap"

def contains_gluten : Str := str "contains_gluten"

/-- `RuleBasedChecker.SUGAR_ALIASES` (analyzer.py lines 170-178), in source
literal order (the Python value is a set). -/
def SUGAR_ALIASES : List Str :=
  [str "sucrose", str "glucose", str "fructose", str "dextrose", str "maltose",
   str "lactose", str "corn syrup", str "high fructose corn syrup", str "hfcs",
   str "cane sugar", str "cane juice", str "evaporated cane juice",
   str "brown rice syrup", str "malt syrup", str "barley malt",
   str "maltodextrin", str "dextrin", str "treacle", str "molasses",
   str "agave", str "agave nectar", str "honey", str "maple syrup",
   str "coconut sugar", str "date sugar", str "turbinado", str "muscovado",
   str "demerara", str "panela", str "jaggery", str "sucanat",
   str "fruit juice concentrate", str "grape juice concentrate"]

/-- `RuleBasedChecker.SEED_OILS` (analyzer.py lines 181-185). -/
def SEED_OILS : List Str :=
  [str "soybean oil", str "canola oil", str "rapeseed oil", str "sunflower oil",
   str "safflower oil", str "corn oil", str "cottonseed oil", str "grapeseed oil",
   str "rice bran oil", str "vegetable oil"]

/-- `RuleBasedChecker.HIGH_FODMAP` (analyzer.py lines 188-194). -/
def HIGH_FODMAP : List Str :=
  [str "onion", str "garlic", str "wheat", str "rye", str "barley", str "inulin",
   str "chicory", str "fructooligosaccharides", str "fos",
   str "galactooligosaccharides", str "gos", str "honey", str "agave",
   str "high fructose corn syrup", str "apple", str "pear", str "mango",
   str "watermelon", str "sorbitol", str "mannitol", str "xylitol",
   str "maltitol", str "isomalt", str "lactitol", str "mushroom",
   str "cauliflower", str "artichoke"]

/-- `RuleBasedChecker.GLUTEN_SOURCES` (analyzer.py lines 197-201); the code
39 spliced in below is the apostrophe of one keyword. -/
def GLUTEN_SOURCES : List Str :=
  [str "wheat", str "barley", str "rye", str "malt",
   str "brewer" ++ 39 :: str "s yeast", str "triticale", str "spelt",
   str "kamut", str "semolina", str "durum", str "farina", str "bulgur",
   str "couscous", str "seitan", str "fu"]

/-- One preliminary flag dict appended by `quick_screen`; the Python keys
`type` and `match` are the fields `rtype` and `mtch`. -/
structure PrelimFlag where
  ingredient : Str
  rtype : Str
  mtch : Str
  rule_based : Bool
deriving DecidableEq, Repr

/-- The profiles gating the sugar category in `quick_screen` (analyzer.py
lines 227-231). -/
def sugarProfiles : List ProfileType :=
  [.type_2_diabetes, .pcos, .keto]

/-- One gated category check of `quick_screen`: if the gate holds, scan the
keyword list in order and flag the first keyword contained in the normalized
ingredient, stopping there (the `for ... break` loop). -/
def catFlags (gate : Bool) (kws : List Str) (rt : Str) (ing normalized : Str) :
    List PrelimFlag :=
  if gate then
    match kws.find? (fun k => isSubstr k normalized) with
    | some k => [⟨ing, rt, k, true⟩]
    | none => []
  else []

/-- The flags `quick_screen` appends for one ingredient: the four category
checks in source order (analyzer.py lines 223-277). -/
def ingredientFlags (prof : UserProfile) (ing : Str) : List PrelimFlag :=
  let normalized := normalize ing
  catFlags (prof.active_profiles.any (fun p => decide (p ∈ sugarProfiles)))
      SUGAR_ALIASES hidden_sugar ing normalized ++
    catFlags (decide (ProfileType.avoid_seed_oils ∈ prof.active_profiles))
      SEED_OILS seed_oil ing normalized ++
    catFlags (decide (ProfileType.ibs_low_fodmap ∈ prof.active_profiles))
      HIGH_FODMAP high_fodmap ing normalized ++
    catFlags (decide (ProfileType.celiac ∈ prof.active_profiles))
      GLUTEN_SOURCES contains_gluten ing normalized

/-- `RuleBasedChecker.quick_screen` (analyzer.py lines 203-279). -/
def quick_screen (ingredients : List Str) (prof : UserProfile) : List PrelimFlag :=
  match ingredients with
  | [] => []
  | ing :: rest => ingredientFlags prof ing ++ quick_screen rest prof

/-- One raw risk-flag record in a collaborator response; every field is
optional because the aggregator reads each key with a `.get` default. -/
structure LLMRiskFlag where
  ingredient : Option Str := none
  risk_type : Option Str := none
  severity : Option Str := none
  explanation : Option Str := none
  relevant_profiles : Option (List Str) := none
deriving DecidableEq, Repr

/-- One raw deception-alert record in a collaborator response. -/
structure LLMDeception where
  claim : Option Str := none
  reality : Option Str := none
  concern_level : Option Str := none
deriving DecidableEq, Repr

/-- One raw smart-swap record in a collaborator response. -/
structure LLMSwap where
  avoid : Option Str := none
  try_instead : Option Str := none
  reason : Option Str := none
deriving DecidableEq, Repr

/-- An uncertainty-flag record: the aggregator passes these through opaquely,
so an association list of string pairs models the JSON dict. -/
structure UncFlag where
  raw : List (Str × Str)
deriving DecidableEq, Repr

/-- The dict a collaborator's `analyze_ingredients` returns: each key is
optional, matching the defaulted `.get` reads on both sides. -/
structure LLMResponse where
  overall_verdict : Option Str := none
  confidence_score : Option Rat := none
  risk_flags : Option (List LLMRiskFlag) := none
  deception_alerts : Option (List LLMDeception) := none
  uncertainty_flags : Option (List UncFlag) := none
  safe_for_general_public : Option Bool := none
  user_specific_warning : Option Bool := none
  smart_swaps : Option (List LLMSwap) := none
  summary : Option Str := none
  error : Option Bool := none
  error_message : Option Str := none
deriving DecidableEq, Repr

/-- `Verdict` constants (config.py lines 20-23). -/
def SAFE : Str := str "SAFE"

/-- `Verdict.CAUTION`. -/
def CAUTION : Str := str "CAUTION"

/-- `Verdict.AVOID`. -/
def AVOID : Str := str "AVOID"

/-- `GroqClient._validate_and_normalize` (llm.py lines 269-289): rebuild the
dict with every key present and defaulted, then coerce an invalid verdict to
`CAUTION`. -/
def validate_and_normalize (r : LLMResponse) : LLMResponse :=
  let v := r.overall_verdict.getD CAUTION
  { overall_verdict :=
      some (if v = SAFE ∨ v = CAUTION ∨ v = AVOID then v else CAUTION)
    confidence_score := some (r.confidence_score.getD (1 / 2))
    risk_flags := some (r.risk_flags.getD [])
    deception_alerts := some (r.deception_alerts.getD [])
    uncertainty_flags := some (r.uncertainty_flags.getD [])
    safe_for_general_public := some (r.safe_for_general_public.getD true)
    user_specific_warning := some (r.user_specific_warning.getD false)
    smart_swaps := some (r.smart_swaps.getD [])
    summary := some (r.summary.getD (str "Analysis complete."))
    error := some false
    error_message := none }

/-- `GroqClient._empty_result` (llm.py lines 291-304). -/
def empty_result (message : Str) : LLMResponse :=
  { overall_verdict := some CAUTION
    confidence_score := some 0
    risk_flags := some []
    deception_alerts := some []
    uncertainty_flags := some []
    safe_for_general_public := some true
    user_specific_warning := some false
    smart_swaps := some []
    summary := some message
    error := some true
    error_message := none }

/-- `GroqClient._error_result` (llm.py lines 306-320). -/
def error_result (msg : Str) : LLMResponse :=
  { overall_verdict := some CAUTION
    confidence_score := some 0
    risk_flags := some []
    deception_alerts := some []
    uncertainty_flags := some []
    safe_for_general_public := some true
    user_specific_warning := some false
    smart_swaps := some []
    summary := some (str "Analysis failed: " ++ msg)
    error := some true
    error_message := some msg }

/-- `GroqClient.analyze_ingredients` (llm.py lines 183-207).  The external
Groq round-trip (`_call_groq` with the built prompts) is abstracted as
`callGroq : Except Str LLMResponse`; `Except.error e` models the call (or
JSON decoding) raising an exception with message `e`, which the method's
`try/except` turns into `_error_result(str(e))`. -/
def groq_analyze_ingredients (callGroq : Except Str LLMResponse)
    (ingredients : Str) (user_profile : UserProfile) : LLMResponse :=
  if ingredients = [] ∨ trim ingredients = [] then
    empty_result (str "No ingredients provided")
  else if user_profile.active_profiles = [] then
    empty_result (str "No health profiles selected")
  else
    match callGroq with
    | .ok r => validate_and_normalize r
    | .error e => error_result e

/-- `RiskFlag` (analyzer.py lines 22-29). -/
structure RiskFlag where
  ingredient : Str
  risk_type : Str
  severity : Str
  explanation : Str
  relevant_profiles : List Str
deriving DecidableEq, Repr

/-- `DeceptionAlert` (analyzer.py lines 32-37). -/
structure DeceptionAlert where
  claim : Str
  reality : Str
  concern_level : Str
deriving DecidableEq, Repr

/-- `SmartSwap` (analyzer.py lines 40-45). -/
structure SmartSwap where
  avoid : Str
  try_instead : Str
  reason : Str
deriving DecidableEq, Repr

/-- `AnalysisResult` (analyzer.py lines 48-68). -/
structure AnalysisResult where
  overall_verdict : Str
  confidence_score : Rat
  risk_flags : List RiskFlag
  deception_alerts : List DeceptionAlert
  uncertainty_flags : List UncFlag
  safe_for_general_public : Bool
  user_specific_warning : Bool
  smart_swaps : List SmartSwap
  summary : Str
  analyzed_profiles : List Str
  timestamp : Str
  ingredient_count : Nat
  error : Bool := false
  error_message : Option Str := none
deriving DecidableEq, Repr

/-- Conversion of one raw collaborator risk flag into a typed `RiskFlag`
(analyzer.py lines 372-381). -/
def toRiskFlag (rf : LLMRiskFlag) : RiskFlag :=
  { ingredient := rf.ingredient.getD (str "Unknown")
    risk_type := rf.risk_type.getD (str "unknown")
    severity := rf.severity.getD (str "medium")
    explanation := rf.explanation.getD []
    relevant_profiles := rf.relevant_profiles.getD [] }

/-- Conversion of one raw deception alert (analyzer.py lines 383-390). -/
def toDeceptionAlert (da : LLMDeception) : DeceptionAlert :=
  { claim := da.claim.getD []
    reality := da.reality.getD []
    concern_level := da.concern_level.getD (str "medium") }

/-- Conversion of one raw smart swap (analyzer.py lines 392-399). -/
def toSmartSwap (ss : LLMSwap) : SmartSwap :=
  { avoid := ss.avoid.getD []
    try_instead := ss.try_instead.getD []
    reason := ss.reason.getD [] }

/-- `analyze_ingredients` (analyzer.py lines 282-415), the aggregator.  The
collaborator client is the `client` argument, modelled as the function its
`analyze_ingredients` method computes; `now` stands for the
`datetime.utcnow().isoformat()` reads.  The unused `include_deception_check`
parameter of the source is omitted. -/
def analyze_ingredients (client : Str → UserProfile → LLMResponse) (now : Str)
    (ingredients : Str) (user_profile : UserProfile) : AnalysisResult :=
  let parsed := parse ingredients
  if parsed = [] then
    { overall_verdict := CAUTION
      confidence_score := 0
      risk_flags := []
      deception_alerts := []
      uncertainty_flags := []
      safe_for_general_public := true
      user_specific_warning := false
      smart_swaps := []
      summary := str "No ingredients could be parsed from the input."
      analyzed_profiles := []
      timestamp := now
      ingredient_count := 0
      error := true
      error_message := some (str "No ingredients found") }
  else if user_profile.active_profiles = [] ∧ user_profile.custom_restrictions = [] then
    { overall_verdict := CAUTION
      confidence_score := 0
      risk_flags := []
      deception_alerts := []
      uncertainty_flags := []
      safe_for_general_public := true
      user_specific_warning := false
      smart_swaps := []
      summary := str "Please select at least one health profile to analyze ingredients."
      analyzed_profiles := []
      timestamp := now
      ingredient_count := parsed.length
      error := true
      error_message := some (str "No profiles selected") }
  else
    let rule_flags := quick_screen parsed user_profile
    let llm_result := client ingredients user_profile
    if llm_result.error.getD false then
      { overall_verdict := CAUTION
        confidence_score := 0
        risk_flags := []
        deception_alerts := []
        uncertainty_flags := []
        safe_for_general_public := true
        user_specific_warning := false
        smart_swaps := []
        summary := llm_result.summary.getD (str "Analysis failed")
        analyzed_profiles := get_display_names user_profile
        timestamp := now
        ingredient_count := parsed.length
        error := true
        error_message := some (llm_result.error_message.getD (str "Unknown error")) }
    else
      { overall_verdict := llm_result.overall_verdict.getD CAUTION
        confidence_score := llm_result.confidence_score.getD (1 / 2)
        risk_flags := (llm_result.risk_flags.getD []).map toRiskFlag
        deception_alerts := (llm_result.deception_alerts.getD []).map toDeceptionAlert
        uncertainty_flags := llm_result.uncertainty_flags.getD []
        safe_for_general_public := llm_result.safe_for_general_public.getD true
        user_specific_warning := llm_result.user_specific_warning.getD false
        smart_swaps := (llm_result.smart_swaps.getD []).map toSmartSwap
        summary := llm_result.summary.getD (str "Analysis complete.")
        analyzed_profiles := get_display_names user_profile
        timestamp := now
        ingredient_count := parsed.length
        error := false
        error_message := none }

/-- The per-flag deduction of `render_health_score` (app.py lines 3044-3053):
note the `else` branch charges 3 points to every severity other than
critical, high and medium. -/
def severityDeduction (sev : Str) : Int :=
  if sev = str "critical" then 25
  else if sev = str "high" then 15
  else if sev = str "medium" then 8
  else 3

/-- The score computation of `render_health_score` (app.py lines 3039-3059):
start at 100, subtract per-flag deductions, subtract 5 per deception alert,
clamp to [0, 100]. -/
def healthScore (flags : List RiskFlag) (alerts : List DeceptionAlert) : Int :=
  let base := flags.foldl (fun b f => b - severityDeduction f.severity) 100
  let base := base - 5 * (alerts.length : Int)
  max 0 (min 100 base)

/-- The grade branch of `render_health_score` (app.py lines 3062-3086). -/
def healthGrade (score : Int) : Str :=
  if score ≥ 80 then str "A"
  else if score ≥ 60 then str "B"
  else if score ≥ 40 then str "C"
  else if score ≥ 20 then str "D"
  else str "F"

/-- A fixed timestamp value for concrete instantiations. -/
def t0 : Str := str "2026-01-01T00:00:00"

/-- A user profile with one active profile (Type 2 Diabetes). -/
def diabeticProfile : UserProfile := ⟨[.type_2_diabetes], [], str "balanced"⟩

/-- A user profile with the Celiac profile active. -/
def celiacProfile : UserProfile := ⟨[.celiac], [], str "balanced"⟩

/-- A user profile with no active profiles and no custom restrictions. -/
def emptyProfile : UserProfile := ⟨[], [], str "balanced"⟩

/-- A collaborator response whose verdict is the invalid string `MAYBE`
and which carries no error. -/
def maybeResponse : LLMResponse := { overall_verdict := some (str "MAYBE") }

/-- A collaborator client (test double) that always answers `maybeResponse`. -/
def stubMaybe : Str → UserProfile → LLMResponse := fun _ _ => maybeResponse

/-- A collaborator client (test double) answering an all-defaults success
response: no verdict, no flags, no error. -/
def stubOk : Str → UserProfile → LLMResponse := fun _ _ => {}

/-- A second, distinguishable test double. -/
def stubOther : Str → UserProfile → LLMResponse :=
  fun _ _ => { overall_verdict := some AVOID }

/-- A risk flag of critical severity. -/
def critFlag : RiskFlag :=
  ⟨str "x", str "allergen", str "critical", str "bad", []⟩

/-- Count the flags of one severity (the spec-side formula counts per
severity class). -/
def countSeverity (flags : List RiskFlag) (sev : Str) : Nat :=
  flags.countP (fun f => f.severity == sev)

/-- The health-score formula exactly as the spec words it: start at 100,
subtract 25/15/8/3 per critical/high/medium/low flag, 5 per deception
alert, clamp to [0, 100]. -/
def healthScoreSpec (flags : List RiskFlag) (alerts : List DeceptionAlert) : Int :=
  max 0 (min 100
    (100 - 25 * (countSeverity flags (str "critical") : Int)
      - 15 * (countSeverity flags (str "high") : Int)
      - 8 * (countSeverity flags (str "medium") : Int)
      - 3 * (countSeverity flags (str "low") : Int)
      - 5 * (alerts.length : Int)))

theorem lowerChar_idem (c : Nat) : lowerChar (lowerChar c) = lowerChar c := by
  by_cases h : 65 ≤ c ∧ c ≤ 90
  · have h2 : ¬(65 ≤ c + 32 ∧ c + 32 ≤ 90) := by omega
    simp [lowerChar, h, h2]
    omega
  · simp [lowerChar, h]

theorem dropWhile_idem (p : Nat → Bool) (l : List Nat) :
    (l.dropWhile p).dropWhile p = l.dropWhile p := by
  induction l with
  | nil => rfl
  | cons c rest ih =>
    by_cases h : p c
    · simp [List.dropWhile, h, ih]
    · simp [List.dropWhile, h]

theorem trimR_cons (c : Nat) (rest : Str) :
    trimR (c :: rest) = if trimR rest = [] ∧ isSpace c then [] else c :: trimR rest := rfl

theorem trimR_idem (l : Str) : trimR (trimR l) = trimR l := by
  induction l with
  | nil => rfl
  | cons c rest ih =>
    rw [trimR_cons]
    by_cases h : trimR rest = [] ∧ isSpace c
    · rw [if_pos h]; rfl
    · rw [if_neg h, trimR_cons, ih, if_neg h]

theorem length_dropWhile_le (p : Nat → Bool) (l : List Nat) :
    (l.dropWhile p).length ≤ l.length := by
  induction l with
  | nil => simp
  | cons c rest ih =>
    by_cases h : p c
    · simp only [List.dropWhile, h]
      exact Nat.le_succ_of_le ih
    · simp [List.dropWhile, h]

theorem dropWhile_fix_head (p : Nat → Bool) (c : Nat) (t : List Nat)
    (h : (c :: t).dropWhile p = c :: t) : p c = false := by
  by_cases hc : p c
  · exfalso
    simp only [List.dropWhile, hc] at h
    have := length_dropWhile_le p t
    have := congrArg List.length h
    simp at this
    omega
  · simpa using hc

theorem trimR_shape (c : Nat) (t : Str) :
    trimR (c :: t) = [] ∨ trimR (c :: t) = c :: trimR t := by
  rw [trimR_cons]
  by_cases h : trimR t = [] ∧ isSpace c
  · left; rw [if_pos h]
  · right; rw [if_neg h]

theorem trimL_trimR_of_fix (m : Str) (hm : trimL m = m) : trimL (trimR m) = trimR m := by
  cases m with
  | nil => rfl
  | cons c t =>
    have hc : isSpace c = false := dropWhile_fix_head isSpace c t hm
    rcases trimR_shape c t with h | h
    · rw [h]; rfl
    · rw [h]
      show (c :: trimR t).dropWhile isSpace = c :: trimR t
      simp [List.dropWhile, hc]

theorem trim_idem (l : Str) : trim (trim l) = trim l := by
  unfold trim
  have h1 : trimL (trimL l) = trimL l := dropWhile_idem isSpace l
  rw [trimL_trimR_of_fix (trimL l) h1, trimR_idem]

theorem hasRP_rpAux (l : Str) (m : Bool) (h : hasRP l = false) :
    hasRP (rpAux l m) = false := by
  induction l generalizing m with
  | nil => cases m <;> rfl
  | cons c rest ih =>
    have hc : (c == 41) = false := by
      by_cases hcc : c = 41
      · exfalso; simp [hasRP, hcc] at h
      · simpa using hcc
    have hr : hasRP rest = false := by
      simp [hasRP, hc] at h
      simpa using h
    cases m with
    | true =>
      show hasRP (if c = 41 then rpAux rest false else rpAux rest true) = false
      by_cases hcc : c = 41
      · rw [if_pos hcc]; exact ih false hr
      · rw [if_neg hcc]; exact ih true hr
    | false =>
      show hasRP (if c = 40 ∧ hasRP rest = true then rpAux rest true else c :: rpAux rest false) = false
      by_cases hg : c = 40 ∧ hasRP rest = true
      · rw [if_pos hg]; exact ih true hr
      · rw [if_neg hg]
        simp [hasRP, hc, ih false hr]

theorem hasMatch_rpAux (l : Str) (m : Bool) : hasMatch (rpAux l m) = false := by
  induction l generalizing m with
  | nil => cases m <;> rfl
  | cons c rest ih =>
    cases m with
    | true =>
      show hasMatch (if c = 41 then rpAux rest false else rpAux rest true) = false
      by_cases hcc : c = 41
      · rw [if_pos hcc]; exact ih false
      · rw [if_neg hcc]; exact ih true
    | false =>
      show hasMatch (if c = 40 ∧ hasRP rest = true then rpAux rest true else c :: rpAux rest false) = false
      by_cases hg : c = 40 ∧ hasRP rest = true
      · rw [if_pos hg]; exact ih true
      · rw [if_neg hg]
        have tail : hasMatch (rpAux rest false) = false := ih false
        by_cases hc40 : c = 40
        · have hr : hasRP rest = false := by
            by_cases hrr : hasRP rest = true
            · exact absurd ⟨hc40, hrr⟩ hg
            · simpa using hrr
          have : hasRP (rpAux rest false) = false := hasRP_rpAux rest false hr
          simp [hasMatch, this, tail]
        · have : (c == 40) = false := by simpa using hc40
          simp [hasMatch, this, tail]

theorem removeParens_hasMatch (l : Str) : hasMatch (removeParens l) = false :=
  hasMatch_rpAux l false

theorem removeParens_fix (l : Str) (h : hasMatch l = false) : removeParens l = l := by
  unfold removeParens
  induction l with
  | nil => rfl
  | cons c rest ih =>
    have h1 : ((c == 40) && hasRP rest) = false := by
      simp [hasMatch] at h
      rcases h with ⟨ha, _⟩
      by_cases hcc : c = 40
      · simp [hcc]
        simpa [hcc] using ha
      · simp [hcc]
    have h2 : hasMatch rest = false := by
      simp [hasMatch] at h
      simpa using h.2
    show (if c = 40 ∧ hasRP rest = true then rpAux rest true else c :: rpAux rest false) = c :: rest
    have hg : ¬(c = 40 ∧ hasRP rest = true) := by
      intro ⟨hc, hr⟩
      rw [hc] at h1
      simp [hr] at h1
    rw [if_neg hg, ih h2]

theorem words_cons_of_space (c : Nat) (rest : Str) (h : isSpace c = true) :
    words (c :: rest) = words rest := by
  simp [words, h]

theorem words_cons (c : Nat) (rest : Str) (h : isSpace c = false) :
    words (c :: rest) =
      (c :: rest.takeWhile (fun d => !isSpace d)) ::
        words (rest.dropWhile (fun d => !isSpace d)) := by
  induction rest generalizing c with
  | nil => simp [words, h]
  | cons d t ih =>
    by_cases hd : isSpace d
    · show (if isSpace c then _ else _) = _
      rw [if_neg (by simp [h])]
      simp [hd, List.takeWhile, List.dropWhile]
    · have hd' : isSpace d = false := by simpa using hd
      have step := ih d hd'
      show (if isSpace c then _ else _) = _
      rw [if_neg (by simp [h])]
      simp only [step]
      simp [hd', List.takeWhile, List.dropWhile]

theorem mem_takeWhile (p : Nat → Bool) (l : List Nat) (a : Nat)
    (h : a ∈ l.takeWhile p) : a ∈ l ∧ p a = true := by
  induction l with
  | nil => simp at h
  | cons c rest ih =>
    rw [List.takeWhile_cons] at h
    cases hc : p c with
    | true =>
      rw [hc, if_pos rfl] at h
      rcases List.mem_cons.mp h with rfl | hmem
      · exact ⟨List.mem_cons_self _ _, hc⟩
      · rcases ih hmem with ⟨h1, h2⟩
        exact ⟨List.mem_cons_of_mem _ h1, h2⟩
    | false =>
      rw [hc] at h
      simp at h

theorem mem_dropWhile (p : Nat → Bool) (l : List Nat) (a : Nat)
    (h : a ∈ l.dropWhile p) : a ∈ l := by
  induction l with
  | nil => simpa using h
  | cons c rest ih =>
    rw [List.dropWhile_cons] at h
    cases hc : p c with
    | true =>
      rw [hc, if_pos rfl] at h
      exact List.mem_cons_of_mem _ (ih h)
    | false =>
      rw [hc] at h
      simpa using h

theorem takeWhile_all (p : Nat → Bool) (l : List Nat) (h : ∀ a ∈ l, p a = true) :
    l.takeWhile p = l := by
  induction l with
  | nil => rfl
  | cons c rest ih =>
    have hc := h c (List.mem_cons_self _ _)
    simp only [List.takeWhile, hc]
    exact congrArg (c :: ·) (ih fun a ha => h a (List.mem_cons_of_mem _ ha))

theorem dropWhile_all (p : Nat → Bool) (l : List Nat) (h : ∀ a ∈ l, p a = true) :
    l.dropWhile p = [] := by
  induction l with
  | nil => rfl
  | cons c rest ih =>
    have hc := h c (List.mem_cons_self _ _)
    simp only [List.dropWhile, hc]
    exact ih fun a ha => h a (List.mem_cons_of_mem _ ha)

theorem takeWhile_append_stop (p : Nat → Bool) (u : List Nat) (x : Nat) (t : List Nat)
    (hu : ∀ a ∈ u, p a = true) (hx : p x = false) :
    (u ++ x :: t).takeWhile p = u := by
  induction u with
  | nil => simp [List.takeWhile, hx]
  | cons c rest ih =>
    have hc := hu c (List.mem_cons_self _ _)
    simp only [List.cons_append, List.takeWhile, hc]
    exact congrArg (c :: ·) (ih fun a ha => hu a (List.mem_cons_of_mem _ ha))

theorem dropWhile_append_stop (p : Nat → Bool) (u : List Nat) (x : Nat) (t : List Nat)
    (hu : ∀ a ∈ u, p a = true) (hx : p x = false) :
    (u ++ x :: t).dropWhile p = x :: t := by
  induction u with
  | nil => simp [List.dropWhile, hx]
  | cons c rest ih =>
    have hc := hu c (List.mem_cons_self _ _)
    simp only [List.cons_append, List.dropWhile, hc]
    exact ih fun a ha => hu a (List.mem_cons_of_mem _ ha)

theorem filter_joinSp (p : Nat → Bool) (hp : p 32 = false) (ws : List Str) :
    (joinSp ws).filter p = catList (ws.map (List.filter p)) := by
  induction ws with
  | nil => rfl
  | cons w ws ih =>
    cases ws with
    | nil => simp [joinSp, catList]
    | cons v ws2 =>
      show (w ++ 32 :: joinSp (v :: ws2)).filter p = _
      rw [List.filter_append]
      simp only [List.map, catList]
      rw [List.filter_cons, hp]
      rw [if_neg (by simp)]
      rw [ih]
      simp [catList]

theorem catList_filter_words (p : Nat → Bool) (hp : ∀ c, p c = true → isSpace c = false) :
    ∀ (n : Nat) (l : Str), l.length ≤ n →
      catList ((words l).map (List.filter p)) = l.filter p := by
  intro n
  induction n with
  | zero =>
    intro l hl
    have : l = [] := List.length_eq_zero.mp (Nat.le_zero.mp hl)
    subst this
    rfl
  | succ n ih =>
    intro l hl
    cases l with
    | nil => rfl
    | cons c rest =>
      cases hc : isSpace c with
      | true =>
        rw [words_cons_of_space c rest hc]
        have hpc : p c = false := by
          cases hpc : p c with
          | false => rfl
          | true => rw [hp c hpc] at hc; exact absurd hc (by simp)
        rw [List.filter_cons, hpc]
        rw [if_neg (by simp)]
        exact ih rest (by simpa using Nat.le_of_succ_le_succ hl)
      | false =>
        rw [words_cons c rest hc]
        simp only [List.map, catList]
        have hrest : rest.length ≤ n := by simpa using Nat.le_of_succ_le_succ hl
        have hdw : (rest.dropWhile (fun d => !isSpace d)).length ≤ n :=
          Nat.le_trans (length_dropWhile_le _ rest) hrest
        rw [ih _ hdw]
        have split : rest.takeWhile (fun d => !isSpace d) ++ rest.dropWhile (fun d => !isSpace d) = rest :=
          List.takeWhile_append_dropWhile (fun d => !isSpace d) rest
        calc (c :: rest.takeWhile (fun d => !isSpace d)).filter p ++
              (rest.dropWhile (fun d => !isSpace d)).filter p
            = ((c :: rest.takeWhile (fun d => !isSpace d)) ++
                rest.dropWhile (fun d => !isSpace d)).filter p := by
              rw [List.filter_append]
          _ = (c :: rest).filter p := by rw [List.cons_append, split]

/-- Whitespace collapsing commutes away under a whitespace-rejecting filter. -/
theorem filter_collapse (p : Nat → Bool) (hp : ∀ c, p c = true → isSpace c = false)
    (l : Str) : (collapse l).filter p = l.filter p := by
  have hp32 : p 32 = false := by
    cases h32 : p 32 with
    | false => rfl
    | true =>
      have := hp 32 h32
      simp [isSpace] at this
  unfold collapse
  rw [filter_joinSp p hp32 (words l)]
  exact catList_filter_words p hp l.length l (Nat.le_refl _)

theorem hasRP_filter (p : Nat → Bool) (hp : p 41 = true) (l : Str) :
    hasRP (l.filter p) = hasRP l := by
  induction l with
  | nil => rfl
  | cons c rest ih =>
    rw [List.filter_cons]
    cases hc : p c with
    | true =>
      rw [if_pos (by simp [hc])]
      simp [hasRP, ih]
    | false =>
      rw [if_neg (by simp [hc])]
      have hc41 : (c == 41) = false := by
        by_cases h41 : c = 41
        · rw [h41] at hc; rw [hc] at hp; exact absurd hp (by simp)
        · simpa using h41
      simp [hasRP, hc41, ih]

theorem hasMatch_filter_isParen (l : Str) :
    hasMatch (l.filter isParen) = hasMatch l := by
  induction l with
  | nil => rfl
  | cons c rest ih =>
    rw [List.filter_cons]
    cases hc : isParen c with
    | true =>
      rw [if_pos (by simp [hc])]
      simp only [hasMatch, ih, hasRP_filter isParen (by simp [isParen]) rest]
    | false =>
      rw [if_neg (by simp [hc])]
      have hc40 : (c == 40) = false := by
        by_cases h40 : c = 40
        · subst h40; simp [isParen] at hc
        · simpa using h40
      simp [hasMatch, hc40, ih]

theorem hasMatch_collapse (l : Str) : hasMatch (collapse l) = hasMatch l := by
  have hpar : ∀ c, isParen c = true → isSpace c = false := by
    intro c hcp
    have hor : c = 40 ∨ c = 41 := by simpa [isParen] using hcp
    rcases hor with rfl | rfl <;> rfl
  rw [← hasMatch_filter_isParen (collapse l), filter_collapse isParen hpar l,
    hasMatch_filter_isParen]

theorem hasRP_map_lowerChar (l : Str) : hasRP (l.map lowerChar) = hasRP l := by
  induction l with
  | nil => rfl
  | cons c rest ih =>
    have key : lowerChar c = 41 ↔ c = 41 := by
      unfold lowerChar; split <;> omega
    have heq : (lowerChar c == 41) = (c == 41) := by
      by_cases hc : c = 41
      · subst hc; rfl
      · have hl : ¬ lowerChar c = 41 := fun hh => hc (key.mp hh)
        simp [hl, hc]
    simp [hasRP, heq, ih]

theorem hasMatch_map_lowerChar (l : Str) : hasMatch (l.map lowerChar) = hasMatch l := by
  induction l with
  | nil => rfl
  | cons c rest ih =>
    have key : lowerChar c = 40 ↔ c = 40 := by
      unfold lowerChar; split <;> omega
    have heq : (lowerChar c == 40) = (c == 40) := by
      by_cases hc : c = 40
      · subst hc; rfl
      · have hl : ¬ lowerChar c = 40 := fun hh => hc (key.mp hh)
        simp [hl, hc]
    simp [hasMatch, heq, ih, hasRP_map_lowerChar]

/-- Every word split off by `words` is non-empty, whitespace-free, and built
from characters of the input. -/
theorem words_good :
    ∀ (n : Nat) (l : Str), l.length ≤ n → ∀ w ∈ words l,
      w ≠ [] ∧ ∀ a ∈ w, a ∈ l ∧ isSpace a = false := by
  intro n
  induction n with
  | zero =>
    intro l hl w hw
    have : l = [] := List.length_eq_zero.mp (Nat.le_zero.mp hl)
    subst this
    simp [words] at hw
  | succ n ih =>
    intro l hl w hw
    cases l with
    | nil => simp [words] at hw
    | cons c rest =>
      have hrest : rest.length ≤ n := by simpa using Nat.le_of_succ_le_succ hl
      cases hc : isSpace c with
      | true =>
        rw [words_cons_of_space c rest hc] at hw
        rcases ih rest hrest w hw with ⟨hne, hmem⟩
        exact ⟨hne, fun a ha =>
          ⟨List.mem_cons_of_mem _ (hmem a ha).1, (hmem a ha).2⟩⟩
      | false =>
        rw [words_cons c rest hc] at hw
        rcases List.mem_cons.mp hw with rfl | hw2
        · refine ⟨by simp, ?_⟩
          intro a ha
          rcases List.mem_cons.mp ha with rfl | ha2
          · exact ⟨List.mem_cons_self _ _, hc⟩
          · rcases mem_takeWhile _ rest a ha2 with ⟨h1, h2⟩
            exact ⟨List.mem_cons_of_mem _ h1, by simpa using h2⟩
        · have hdw : (rest.dropWhile (fun d => !isSpace d)).length ≤ n :=
            Nat.le_trans (length_dropWhile_le _ rest) hrest
          rcases ih _ hdw w hw2 with ⟨hne, hmem⟩
          refine ⟨hne, fun a ha => ?_⟩
          rcases hmem a ha with ⟨h1, h2⟩
          exact ⟨List.mem_cons_of_mem _ (mem_dropWhile _ rest a h1), h2⟩

theorem mem_joinSp (ws : List Str) (a : Nat) (h : a ∈ joinSp ws) :
    a = 32 ∨ ∃ w ∈ ws, a ∈ w := by
  induction ws with
  | nil => simp [joinSp] at h
  | cons w ws ih =>
    cases ws with
    | nil =>
      right
      exact ⟨w, List.mem_cons_self _ _, by simpa [joinSp] using h⟩
    | cons v ws2 =>
      have h2 : a ∈ w ++ 32 :: joinSp (v :: ws2) := h
      rcases List.mem_append.mp h2 with hw | hrest
      · exact Or.inr ⟨w, List.mem_cons_self _ _, hw⟩
      · rcases List.mem_cons.mp hrest with rfl | hj
        · exact Or.inl rfl
        · rcases ih hj with h32 | ⟨u, hu, hau⟩
          · exact Or.inl h32
          · exact Or.inr ⟨u, List.mem_cons_of_mem _ hu, hau⟩

theorem map_fix (f : Nat → Nat) (l : List Nat) (h : ∀ a ∈ l, f a = a) :
    l.map f = l := by
  induction l with
  | nil => rfl
  | cons c rest ih =>
    simp only [List.map]
    rw [h c (List.mem_cons_self _ _), ih fun a ha => h a (List.mem_cons_of_mem _ ha)]

/-- `words` of a single whitespace-free non-empty word is that word. -/
theorem words_single (w : Str) (hne : w ≠ []) (hns : ∀ a ∈ w, isSpace a = false) :
    words w = [w] := by
  cases w with
  | nil => exact absurd rfl hne
  | cons c t =>
    have hc : isSpace c = false := hns c (List.mem_cons_self _ _)
    rw [words_cons c t hc]
    have ht : ∀ a ∈ t, (!isSpace a) = true := by
      intro a ha
      simp [hns a (List.mem_cons_of_mem _ ha)]
    rw [takeWhile_all _ t ht, dropWhile_all _ t ht]
    rfl

/-- Splitting after appending a space-separated word peels off that word. -/
theorem words_append_space (w : Str) (t : Str) (hne : w ≠ [])
    (hns : ∀ a ∈ w, isSpace a = false) :
    words (w ++ 32 :: t) = w :: words t := by
  cases w with
  | nil => exact absurd rfl hne
  | cons c u =>
    have hc : isSpace c = false := hns c (List.mem_cons_self _ _)
    rw [List.cons_append, words_cons c (u ++ 32 :: t) hc]
    have hu : ∀ a ∈ u, (!isSpace a) = true := by
      intro a ha
      simp [hns a (List.mem_cons_of_mem _ ha)]
    rw [takeWhile_append_stop _ u 32 t hu (by simp [isSpace]),
      dropWhile_append_stop _ u 32 t hu (by simp [isSpace])]
    rw [words_cons_of_space 32 t (by simp [isSpace])]

/-- Splitting is a retraction of space-joining on good word lists. -/
theorem words_joinSp (ws : List Str)
    (h : ∀ w ∈ ws, w ≠ [] ∧ ∀ a ∈ w, isSpace a = false) :
    words (joinSp ws) = ws := by
  induction ws with
  | nil => rfl
  | cons w ws ih =>
    cases ws with
    | nil =>
      rcases h w (List.mem_cons_self _ _) with ⟨hne, hns⟩
      simpa [joinSp] using words_single w hne hns
    | cons v ws2 =>
      rcases h w (List.mem_cons_self _ _) with ⟨hne, hns⟩
      show words (w ++ 32 :: joinSp (v :: ws2)) = _
      rw [words_append_space w _ hne hns]
      rw [ih fun u hu => h u (List.mem_cons_of_mem _ hu)]

theorem collapse_idem (l : Str) : collapse (collapse l) = collapse l := by
  unfold collapse
  rw [words_joinSp (words l) fun w hw =>
    ⟨(words_good l.length l (Nat.le_refl _) w hw).1,
      fun a ha => ((words_good l.length l (Nat.le_refl _) w hw).2 a ha).2⟩]

theorem map_lowerChar_collapse (m : Str) (hfix : ∀ a ∈ m, lowerChar a = a) :
    (collapse m).map lowerChar = collapse m := by
  apply map_fix
  intro a ha
  rcases mem_joinSp (words m) a ha with rfl | ⟨w, hw, haw⟩
  · rfl
  · exact hfix a ((words_good m.length m (Nat.le_refl _) w hw).2 a haw).1

/-- `normalize` is idempotent (claim C9's content, general form). -/
theorem normalize_idem (x : Str) : normalize (normalize x) = normalize x := by
  have hy : normalize x = collapse ((removeParens x).map lowerChar) := rfl
  set m : Str := (removeParens x).map lowerChar with hm
  have hmfix : ∀ a ∈ m, lowerChar a = a := by
    intro a ha
    rcases List.mem_map.mp ha with ⟨b, _, rfl⟩
    exact lowerChar_idem b
  have hnm : hasMatch (collapse m) = false := by
    rw [hasMatch_collapse, hm, hasMatch_map_lowerChar]
    exact removeParens_hasMatch x
  show collapse ((removeParens (collapse m)).map lowerChar) = collapse m
  rw [removeParens_fix _ hnm, map_lowerChar_collapse m hmfix, collapse_idem]

/-- Everything `scanSplit` emits is a non-empty `trim`-fixed segment. -/
theorem scanSplit_mem (l : Str) : ∀ (cur : Str) (d : Int) (t : Str),
    t ∈ scanSplit l cur d → trim t = t ∧ t ≠ [] := by
  induction l with
  | nil =>
    intro cur d t ht
    by_cases h : trim cur = []
    · simp [scanSplit, h] at ht
    · simp only [scanSplit] at ht
      rw [if_neg h] at ht
      rcases List.mem_singleton.mp ht with rfl
      exact ⟨trim_idem cur, h⟩
  | cons c rest ih =>
    intro cur d t ht
    simp only [scanSplit] at ht
    by_cases h40 : c = 40
    · rw [if_pos h40] at ht
      exact ih _ _ t ht
    · rw [if_neg h40] at ht
      by_cases h41 : c = 41
      · rw [if_pos h41] at ht
        exact ih _ _ t ht
      · rw [if_neg h41] at ht
        by_cases hsplit : (c = 44 ∨ c = 59) ∧ d = 0
        · rw [if_pos hsplit] at ht
          rcases List.mem_append.mp ht with hl | hr
          · by_cases h : trim cur = []
            · simp [h] at hl
            · rw [if_neg h] at hl
              rcases List.mem_singleton.mp hl with rfl
              exact ⟨trim_idem cur, h⟩
          · exact ih _ _ t hr
        · rw [if_neg hsplit] at ht
          exact ih _ _ t ht

theorem parse_mem (raw : Str) (t : Str) (ht : t ∈ parse raw) :
    trim t = t ∧ t ≠ [] := by
  unfold parse at ht
  by_cases h : raw = []
  · simp [h] at ht
  · rw [if_neg h] at ht
    exact scanSplit_mem _ _ _ t ht

theorem stripLabels_nil : stripLabels [] = [] := by decide

theorem parse_ne_nil_facts (raw : Str) (h : parse raw ≠ []) :
    raw ≠ [] ∧ trim raw ≠ [] := by
  constructor
  · intro hr
    exact h (by simp [parse, hr])
  · intro htr
    apply h
    unfold parse
    by_cases hr : raw = []
    · rw [if_pos hr]
    · rw [if_neg hr, htr, stripLabels_nil]
      rfl

/-- C9: `normalize` is idempotent: for every ingredient string `x`,
`normalize (normalize x) = normalize x`, where `normalize` removes all
parenthetical content and collapses whitespace and case. -/
theorem C9_normalize_idempotent (x : Str) :
    normalize (normalize x) = normalize x :=
  normalize_idem x

/-- C8: the `parse` contract: `parse ""` is empty; a recognized
`Ingredients:`/`Contains:` label is stripped case-insensitively; commas and
semicolons split only at parenthesis depth zero; each emitted segment is
trimmed and non-empty (empty segments are dropped). -/
theorem C8_parse_contract :
    parse (str "") = [] ∧
    parse (str "Ingredients: A, B") = [str "A", str "B"] ∧
    parse (str "INGREDIENTS: A, B") = [str "A", str "B"] ∧
    parse (str "Contains: A; B") = [str "A", str "B"] ∧
    parse (str "Flour (Wheat, Niacin), Water")
      = [str "Flour (Wheat, Niacin)", str "Water"] ∧
    parse (str "  A , ,  B ") = [str "A", str "B"] ∧
    ∀ s t, t ∈ parse s → trim t = t ∧ t ≠ [] :=
  ⟨by decide, by decide, by decide, by decide, by decide, by decide,
    fun s t ht => parse_mem s t ht⟩

/-- C8 witness: the general segment clause of `C8_parse_contract` applied at
a concrete input. -/
theorem C8_parse_contract_witness :
    (str "A" ∈ parse (str "A, B")) ∧ trim (str "A") = str "A" ∧ str "A" ≠ [] := by
  have h := C8_parse_contract.2.2.2.2.2.2 (str "A, B") (str "A") (by decide)
  exact ⟨by decide, h.1, h.2⟩

/-- C5 counterexample: the claim says a top-level comma appearing after an
unmatched `)` still splits; on input `"a), b"` the scan reaches the comma at
depth `-1`, the depth test `paren_depth == 0` fails, and no split happens:
the whole input comes back as a single token. -/
theorem C5_counterexample :
    parse (str "a), b") = [str "a), b"] ∧
    parse (str "a), b") ≠ [str "a)", str "b"] :=
  ⟨by decide, by decide⟩

/-- C5 (amended): `parse` never crashes on unbalanced parentheses (it is a
total function) and a trailing unterminated segment is still emitted when
non-empty; however the depth counter is not clamped: an unmatched `)` drives
the depth negative and a following top-level comma or semicolon does not
split until enough `(` characters restore the depth to zero, where
splitting resumes.  Every emitted segment is still non-empty. -/
theorem C5_amended :
    parse (str "Flour (Wheat") = [str "Flour (Wheat"] ∧
    parse (str "((a, b") = [str "((a, b"] ∧
    parse (str "a), b") = [str "a), b"] ∧
    parse (str "a)(x, y), b") = [str "a)(x", str "y), b"] ∧
    ∀ s t, t ∈ parse s → t ≠ [] :=
  ⟨by decide, by decide, by decide, by decide,
    fun s t ht => (parse_mem s t ht).2⟩

/-- C5 witness: the general non-empty-segment clause of `C5_amended` applied
at a concrete unbalanced input. -/
theorem C5_amended_witness :
    (str "a), b" ∈ parse (str "a), b")) ∧ str "a), b" ≠ [] := by
  have h := C5_amended.2.2.2.2 (str "a), b") (str "a), b") (by decide)
  exact ⟨by decide, h⟩

/-- C10: because `quick_screen` matches keywords against
`normalize ingredient`, which deletes parenthetical content, a gluten
keyword occurring only inside parentheses is invisible: with the CELIAC
profile active, `"Flour (Wheat)"` receives no flag, while `"Wheat Flour"`
receives the gluten flag. -/
theorem C10_paren_content_invisible :
    normalize (str "Flour (Wheat)") = str "flour" ∧
    quick_screen [str "Flour (Wheat)"] celiacProfile = [] ∧
    (quick_screen [str "Wheat Flour"] celiacProfile).map PrelimFlag.rtype
      = [contains_gluten] :=
  ⟨by decide, by decide, by decide⟩

/-- C3: `analyze_ingredients` short-circuits on input errors: zero parsed
ingredients give an `error=true` result with verdict CAUTION, confidence 0
and the no-ingredients summary; a profile with neither active profiles nor
custom restrictions short-circuits identically with the distinct
select-at-least-one-profile message.  In both cases the result is the same
for any two collaborator clients, so the collaborator is never invoked. -/
theorem C3_short_circuits (clientA clientB : Str → UserProfile → LLMResponse)
    (now ing : Str) (prof : UserProfile) :
    (parse ing = [] →
      (analyze_ingredients clientA now ing prof).error = true ∧
      (analyze_ingredients clientA now ing prof).overall_verdict = CAUTION ∧
      (analyze_ingredients clientA now ing prof).confidence_score = 0 ∧
      (analyze_ingredients clientA now ing prof).summary
        = str "No ingredients could be parsed from the input." ∧
      (analyze_ingredients clientA now ing prof).error_message
        = some (str "No ingredients found") ∧
      analyze_ingredients clientA now ing prof
        = analyze_ingredients clientB now ing prof) ∧
    (parse ing ≠ [] → prof.active_profiles = [] → prof.custom_restrictions = [] →
      (analyze_ingredients clientA now ing prof).error = true ∧
      (analyze_ingredients clientA now ing prof).overall_verdict = CAUTION ∧
      (analyze_ingredients clientA now ing prof).confidence_score = 0 ∧
      (analyze_ingredients clientA now ing prof).summary
        = str "Please select at least one health profile to analyze ingredients." ∧
      (analyze_ingredients clientA now ing prof).error_message
        = some (str "No profiles selected") ∧
      analyze_ingredients clientA now ing prof
        = analyze_ingredients clientB now ing prof) := by
  constructor
  · intro h
    simp [analyze_ingredients, h]
  · intro h ha hc
    simp [analyze_ingredients, h, ha, hc]

/-- C3 witness: both short-circuit branches of `C3_short_circuits` at
concrete inputs (empty input, and a non-empty input with an empty profile). -/
theorem C3_short_circuits_witness :
    (parse (str "") = [] ∧
      (analyze_ingredients stubMaybe t0 (str "") diabeticProfile).error = true) ∧
    (parse (str "Sugar") ≠ [] ∧ emptyProfile.active_profiles = [] ∧
      emptyProfile.custom_restrictions = [] ∧
      (analyze_ingredients stubMaybe t0 (str "Sugar") emptyProfile).error = true ∧
      analyze_ingredients stubMaybe t0 (str "Sugar") emptyProfile
        = analyze_ingredients stubOther t0 (str "Sugar") emptyProfile) := by
  constructor
  · exact ⟨by decide,
      ((C3_short_circuits stubMaybe stubOther t0 (str "") diabeticProfile).1
        (by decide)).1⟩
  · have h := (C3_short_circuits stubMaybe stubOther t0 (str "Sugar") emptyProfile).2
      (by decide) (by decide) (by decide)
    exact ⟨by decide, by decide, by decide, h.1, h.2.2.2.2.2⟩

/-- C2: with the shipped collaborator client (`GroqClient`), an exception
raised by the external analyze call — modelled as
`groq_analyze_ingredients (Except.error e)` — is caught at the call site by
the client's `try/except` and surfaces from `analyze_ingredients` as a total
`AnalysisResult` with `error = true` carrying the exception message (and the
`Analysis failed:` summary); no exception escapes the public boundary, which
the embedding states by `analyze_ingredients` being a total function into
`AnalysisResult` even when the external call errors. -/
theorem C2_collaborator_exception_caught (e now ing : Str) (prof : UserProfile)
    (h1 : parse ing ≠ []) (h2 : prof.active_profiles ≠ []) :
    (analyze_ingredients (groq_analyze_ingredients (Except.error e))
        now ing prof).error = true ∧
    (analyze_ingredients (groq_analyze_ingredients (Except.error e))
        now ing prof).error_message = some e ∧
    (analyze_ingredients (groq_analyze_ingredients (Except.error e))
        now ing prof).summary = str "Analysis failed: " ++ e ∧
    (analyze_ingredients (groq_analyze_ingredients (Except.error e))
        now ing prof).overall_verdict = CAUTION := by
  rcases parse_ne_nil_facts ing h1 with ⟨hne, htr⟩
  have hgate : ¬(ing = [] ∨ trim ing = []) := by
    intro h
    rcases h with h | h
    · exact hne h
    · exact htr h
  have hprof : ¬(prof.active_profiles = [] ∧ prof.custom_restrictions = []) := by
    intro h
    exact h2 h.1
  have hllm : groq_analyze_ingredients (Except.error e) ing prof = error_result e := by
    simp [groq_analyze_ingredients, hgate, h2]
  simp [analyze_ingredients, h1, hprof, hllm, error_result]

/-- C2 witness: `C2_collaborator_exception_caught` at a concrete input. -/
theorem C2_collaborator_exception_caught_witness :
    parse (str "Sugar") ≠ [] ∧ diabeticProfile.active_profiles ≠ [] ∧
    (analyze_ingredients (groq_analyze_ingredients (Except.error (str "boom")))
        t0 (str "Sugar") diabeticProfile).error = true ∧
    (analyze_ingredients (groq_analyze_ingredients (Except.error (str "boom")))
        t0 (str "Sugar") diabeticProfile).error_message = some (str "boom") := by
  have h := C2_collaborator_exception_caught (str "boom") t0 (str "Sugar")
    diabeticProfile (by decide) (by decide)
  exact ⟨by decide, by decide, h.1, h.2.1⟩

/-- C1 counterexample: a collaborator response carrying the invalid verdict
`MAYBE` (and no error) reaches `analyze_ingredients` unchanged — the
aggregator only defaults a *missing* verdict, it does not coerce an invalid
one, so the returned verdict is `MAYBE`, not `CAUTION` as the claim
states. -/
theorem C1_counterexample :
    (analyze_ingredients stubMaybe t0 (str "Sugar") diabeticProfile).overall_verdict
      = str "MAYBE" ∧
    (analyze_ingredients stubMaybe t0 (str "Sugar") diabeticProfile).overall_verdict
      ≠ CAUTION :=
  ⟨by decide, by decide⟩

/-- C1 (amended): verdict coercion happens inside
`GroqClient._validate_and_normalize`, not in the aggregator.  When the
collaborator client is the shipped `GroqClient` and the raw external
response has a missing or invalid `overall_verdict`, the final
`AnalysisResult` has verdict `CAUTION`; at the aggregator itself only a
*missing* verdict in the client's response is defaulted to `CAUTION`, while
an invalid-but-present verdict (e.g. `MAYBE`) passes through unchanged. -/
theorem C1_verdict_coercion_amended (r : LLMResponse) (now ing : Str)
    (prof : UserProfile)
    (h1 : parse ing ≠ []) (h2 : prof.active_profiles ≠ [])
    (h3 : match r.overall_verdict with
          | none => True
          | some v => ¬(v = SAFE ∨ v = CAUTION ∨ v = AVOID)) :
    (analyze_ingredients (groq_analyze_ingredients (Except.ok r))
        now ing prof).overall_verdict = CAUTION ∧
    ∀ client : Str → UserProfile → LLMResponse,
      (client ing prof).overall_verdict = none →
      (client ing prof).error.getD false = false →
      (analyze_ingredients client now ing prof).overall_verdict = CAUTION := by
  rcases parse_ne_nil_facts ing h1 with ⟨hne, htr⟩
  have hgate : ¬(ing = [] ∨ trim ing = []) := by
    intro h
    rcases h with h | h
    · exact hne h
    · exact htr h
  have hprof : ¬(prof.active_profiles = [] ∧ prof.custom_restrictions = []) := by
    intro h
    exact h2 h.1
  constructor
  · have hllm : groq_analyze_ingredients (Except.ok r) ing prof
        = validate_and_normalize r := by
      simp [groq_analyze_ingredients, hgate, h2]
    have hv : (validate_and_normalize r).overall_verdict = some CAUTION := by
      unfold validate_and_normalize
      cases hov : r.overall_verdict with
      | none =>
        simp [hov, CAUTION]
      | some v =>
        rw [hov] at h3
        simp only [hov, Option.getD_some]
        rw [if_neg h3]
    have herr : (validate_and_normalize r).error.getD false = false := by
      unfold validate_and_normalize
      simp
    simp [analyze_ingredients, h1, hprof, hllm, herr, hv]
  · intro client hov herr
    simp [analyze_ingredients, h1, hprof, herr, hov]

/-- C1 witness: `C1_verdict_coercion_amended` at the concrete invalid
response `maybeResponse` routed through the shipped client. -/
theorem C1_verdict_coercion_amended_witness :
    parse (str "Sugar") ≠ [] ∧ diabeticProfile.active_profiles ≠ [] ∧
    ¬(str "MAYBE" = SAFE ∨ str "MAYBE" = CAUTION ∨ str "MAYBE" = AVOID) ∧
    (analyze_ingredients (groq_analyze_ingredients (Except.ok maybeResponse))
        t0 (str "Sugar") diabeticProfile).overall_verdict = CAUTION := by
  have h := C1_verdict_coercion_amended maybeResponse t0 (str "Sugar")
    diabeticProfile (by decide) (by decide)
    (show ¬(str "MAYBE" = SAFE ∨ str "MAYBE" = CAUTION ∨ str "MAYBE" = AVOID)
      by decide)
  exact ⟨by decide, by decide, by decide, h.1⟩

/-- C4: on every successful analysis the returned `risk_flags` are exactly
the typed conversions of the collaborator response's `risk_flags`, so the
rule-based `quick_screen` output is never merged into them; the concrete
conjuncts exhibit the gap: `quick_screen` flags `honey` for the diabetic
profile, yet the final result of a collaborator returning no flags has an
empty `risk_flags` list. -/
theorem C4_flags_only_from_collaborator
    (client : Str → UserProfile → LLMResponse) (now ing : Str)
    (prof : UserProfile)
    (h1 : parse ing ≠ [])
    (h2 : ¬(prof.active_profiles = [] ∧ prof.custom_restrictions = []))
    (h3 : (client ing prof).error.getD false = false) :
    (analyze_ingredients client now ing prof).risk_flags
      = ((client ing prof).risk_flags.getD []).map toRiskFlag ∧
    quick_screen (parse (str "honey")) diabeticProfile ≠ [] ∧
    (analyze_ingredients stubOk t0 (str "honey") diabeticProfile).risk_flags
      = [] := by
  refine ⟨?_, by decide, by decide⟩
  simp [analyze_ingredients, h1, h2, h3]

/-- C4 witness: `C4_flags_only_from_collaborator` at a concrete successful
analysis. -/
theorem C4_flags_only_from_collaborator_witness :
    parse (str "honey") ≠ [] ∧
    ¬(diabeticProfile.active_profiles = [] ∧
        diabeticProfile.custom_restrictions = []) ∧
    (stubOk (str "honey") diabeticProfile).error.getD false = false ∧
    (analyze_ingredients stubOk t0 (str "honey") diabeticProfile).risk_flags
      = ((stubOk (str "honey") diabeticProfile).risk_flags.getD []).map
          toRiskFlag := by
  have h := C4_flags_only_from_collaborator stubOk t0 (str "honey")
    diabeticProfile (by decide) (by decide) (by decide)
  exact ⟨by decide, by decide, by decide, h.1⟩

theorem foldl_sub_eq_sub_sum (d : RiskFlag → Int) (flags : List RiskFlag) :
    ∀ b : Int, flags.foldl (fun b f => b - d f) b = b - (flags.map d).sum := by
  induction flags with
  | nil => intro b; simp
  | cons f rest ih =>
    intro b
    simp only [List.foldl, List.map, List.sum_cons]
    rw [ih (b - d f)]
    ring

theorem sum_deductions_eq (flags : List RiskFlag)
    (h : ∀ f ∈ flags, f.severity = str "critical" ∨ f.severity = str "high" ∨
      f.severity = str "medium" ∨ f.severity = str "low") :
    (flags.map (fun f => severityDeduction f.severity)).sum
      = 25 * (countSeverity flags (str "critical") : Int)
        + 15 * (countSeverity flags (str "high") : Int)
        + 8 * (countSeverity flags (str "medium") : Int)
        + 3 * (countSeverity flags (str "low") : Int) := by
  induction flags with
  | nil => simp [countSeverity]
  | cons f rest ih =>
    have hrest := ih fun g hg => h g (List.mem_cons_of_mem _ hg)
    have hcount : ∀ sev, countSeverity (f :: rest) sev
        = countSeverity rest sev + (if f.severity == sev then 1 else 0) := by
      intro sev
      simp [countSeverity, List.countP_cons]
    simp only [List.map, List.sum_cons, hrest, hcount]
    rcases h f (List.mem_cons_self _ _) with hf | hf | hf | hf <;>
      rw [hf] <;>
      simp [severityDeduction, str] <;>
      ring

/-- C6: the health score is computed exactly as the spec formula (100 minus
25/15/8/3 per critical/high/medium/low flag and 5 per deception alert,
clamped to [0,100]) whenever every flag carries one of the four documented
severities, with grades A(≥80) B(≥60) C(≥40) D(≥20) F(<20); in particular
no flags and no alerts give score 100 and grade A, and five critical flags
give score 0 and grade F. -/
theorem C6_health_score_formula (flags : List RiskFlag)
    (alerts : List DeceptionAlert)
    (h : ∀ f ∈ flags, f.severity = str "critical" ∨ f.severity = str "high" ∨
      f.severity = str "medium" ∨ f.severity = str "low") :
    healthScore flags alerts = healthScoreSpec flags alerts ∧
    healthScore [] [] = 100 ∧ healthGrade (healthScore [] []) = str "A" ∧
    healthScore (List.replicate 5 critFlag) [] = 0 ∧
    healthGrade (healthScore (List.replicate 5 critFlag) []) = str "F" := by
  refine ⟨?_, by decide, by decide, by decide, by decide⟩
  unfold healthScore healthScoreSpec
  rw [foldl_sub_eq_sub_sum, sum_deductions_eq flags h]
  ring_nf

/-- C6 witness: `C6_health_score_formula` at one critical flag and one
deception alert. -/
theorem C6_health_score_formula_witness :
    (∀ f ∈ [critFlag], f.severity = str "critical" ∨ f.severity = str "high" ∨
      f.severity = str "medium" ∨ f.severity = str "low") ∧
    healthScore [critFlag] [⟨str "c", str "r", str "low"⟩]
      = healthScoreSpec [critFlag] [⟨str "c", str "r", str "low"⟩] := by
  have h := C6_health_score_formula [critFlag] [⟨str "c", str "r", str "low"⟩]
    (by decide)
  exact ⟨by decide, h.1⟩

theorem catFlags_rtype (g : Bool) (kws : List Str) (rt : Str) (ing n : Str) :
    ∀ f ∈ catFlags g kws rt ing n, f.rtype = rt := by
  intro f hf
  unfold catFlags at hf
  cases g with
  | false => simp at hf
  | true =>
    simp only [if_pos rfl] at hf
    cases hfind : kws.find? (fun k => isSubstr k n) with
    | none => rw [hfind] at hf; simp at hf
    | some k =>
      rw [hfind] at hf
      rcases List.mem_singleton.mp hf with rfl
      rfl

theorem catFlags_length (g : Bool) (kws : List Str) (rt : Str) (ing n : Str) :
    (catFlags g kws rt ing n).length ≤ 1 := by
  unfold catFlags
  cases g with
  | false => simp
  | true =>
    simp only [if_pos rfl]
    cases kws.find? (fun k => isSubstr k n) with
    | none => simp
    | some k => simp

theorem countP_catFlags_le (g : Bool) (kws : List Str) (rt : Str) (ing n ty : Str) :
    (catFlags g kws rt ing n).countP (fun f => f.rtype == ty) ≤ 1 :=
  Nat.le_trans (List.countP_le_length _) (catFlags_length g kws rt ing n)

theorem countP_catFlags_ne (g : Bool) (kws : List Str) (rt : Str) (ing n ty : Str)
    (hne : rt ≠ ty) :
    (catFlags g kws rt ing n).countP (fun f => f.rtype == ty) = 0 := by
  apply List.countP_eq_zero.mpr
  intro f hf
  have := catFlags_rtype g kws rt ing n f hf
  simp [this]
  exact hne

/-- C7: `quick_screen` emits at most one flag per (ingredient occurrence,
category) pair — within a category the first matching keyword wins and the
scan stops (`break`), so several matching synonyms still yield one flag —
while one ingredient may receive flags from several different categories;
the list processed per ingredient is `ingredientFlags`. -/
theorem C7_category_cap :
    (∀ (prof : UserProfile) (ing ty : Str),
      (ingredientFlags prof ing).countP (fun f => f.rtype == ty) ≤ 1) ∧
    (∀ (prof : UserProfile) (ing : Str),
      quick_screen [ing] prof = ingredientFlags prof ing) ∧
    (quick_screen [str "high fructose corn syrup"]
        ⟨[.keto], [], str "balanced"⟩).length = 1 ∧
    (quick_screen [str "honey"]
        ⟨[.type_2_diabetes, .ibs_low_fodmap], [], str "balanced"⟩).map
        PrelimFlag.rtype = [hidden_sugar, high_fodmap] := by
  refine ⟨?_, ?_, by decide, by decide⟩
  · intro prof ing ty
    unfold ingredientFlags
    rw [List.countP_append, List.countP_append, List.countP_append]
    have hsugar := countP_catFlags_le
      (prof.active_profiles.any (fun p => decide (p ∈ sugarProfiles)))
      SUGAR_ALIASES hidden_sugar ing (normalize ing) ty
    have hoil := countP_catFlags_le
      (decide (ProfileType.avoid_seed_oils ∈ prof.active_profiles))
      SEED_OILS seed_oil ing (normalize ing) ty
    have hfod := countP_catFlags_le
      (decide (ProfileType.ibs_low_fodmap ∈ prof.active_profiles))
      HIGH_FODMAP high_fodmap ing (normalize ing) ty
    have hglu := countP_catFlags_le
      (decide (ProfileType.celiac ∈ prof.active_profiles))
      GLUTEN_SOURCES contains_gluten ing (normalize ing) ty
    by_cases t1 : ty = hidden_sugar
    · have z2 := countP_catFlags_ne
        (decide (ProfileType.avoid_seed_oils ∈ prof.active_profiles))
        SEED_OILS seed_oil ing (normalize ing) ty (by rw [t1]; decide)
      have z3 := countP_catFlags_ne
        (decide (ProfileType.ibs_low_fodmap ∈ prof.active_profiles))
        HIGH_FODMAP high_fodmap ing (normalize ing) ty (by rw [t1]; decide)
      have z4 := countP_catFlags_ne
        (decide (ProfileType.celiac ∈ prof.active_profiles))
        GLUTEN_SOURCES contains_gluten ing (normalize ing) ty (by rw [t1]; decide)
      omega
    · have z1 := countP_catFlags_ne
        (prof.active_profiles.any (fun p => decide (p ∈ sugarProfiles)))
        SUGAR_ALIASES hidden_sugar ing (normalize ing) ty
        (fun hh => t1 hh.symm)
      by_cases t2 : ty = seed_oil
      · have z3 := countP_catFlags_ne
          (decide (ProfileType.ibs_low_fodmap ∈ prof.active_profiles))
          HIGH_FODMAP high_fodmap ing (normalize ing) ty (by rw [t2]; decide)
        have z4 := countP_catFlags_ne
          (decide (ProfileType.celiac ∈ prof.active_profiles))
          GLUTEN_SOURCES contains_gluten ing (normalize ing) ty (by rw [t2]; decide)
        omega
      · have z2 := countP_catFlags_ne
          (decide (ProfileType.avoid_seed_oils ∈ prof.active_profiles))
          SEED_OILS seed_oil ing (normalize ing) ty (fun hh => t2 hh.symm)
        by_cases t3 : ty = high_fodmap
        · have z4 := countP_catFlags_ne
            (decide (ProfileType.celiac ∈ prof.active_profiles))
            GLUTEN_SOURCES contains_gluten ing (normalize ing) ty
            (by rw [t3]; decide)
          omega
        · have z3 := countP_catFlags_ne
            (decide (ProfileType.ibs_low_fodmap ∈ prof.active_profiles))
            HIGH_FODMAP high_fodmap ing (normalize ing) ty (fun hh => t3 hh.symm)
          omega
  · intro prof ing
    show ingredientFlags prof ing ++ quick_screen [] prof = ingredientFlags prof ing
    simp [quick_screen]

end LabelLens
